import Mathlib

/-!
Verification of the Mask R-CNN inference pipeline in
`src/detector/vehicle/mask_rcnn/mrcnn.py` (class `MaskRCNN`).

Numerics are embedded over `ℚ` (exact rationals standing for the floating
point arrays), images and detection tensors over lists.  Helper functions
imported by `mrcnn.py` from its `utils` module (`norm_boxes`, `denorm_boxes`,
`unmold_mask`, `compose_image_meta`, `resize_image`, `mold_image`,
`generate_pyramid_anchors`) are not part of the given sources; where a claim
needs them they are modelled from the specification text and marked
`Modelled from the spec:` in their doc comment.  The Keras predictor and the
resize step are opaque collaborators and enter the embedding as function
parameters.
-/

namespace MRCNN

/-- A box (y1, x1, y2, x2) with rational coordinates.  Used both for
normalized boxes and for pixel boxes. -/
structure Box where
  y1 : ℚ
  x1 : ℚ
  y2 : ℚ
  x2 : ℚ
deriving Repr, DecidableEq

/-- One row of the `detections` tensor: (y1, x1, y2, x2, class_id, score) in
normalized coordinates.  `class_id` is kept rational because the tensor is a
float array; `unmold_detections` casts it to an integer. -/
structure DetRow where
  box : Box
  class_id : ℚ
  score : ℚ
deriving Repr, DecidableEq

/-- One image slice of `mrcnn_mask`: a small mask of shape
height × width × num_classes (innermost axis is the class channel). -/
abbrev SmallMask := List (List (List ℚ))

/-- Truncation of a rational towards zero, the semantics of numpy
`astype(np.int32)` on a float value. -/
def truncToInt (q : ℚ) : Int :=
  if 0 ≤ q then q.floor else q.ceil

/-- Modelled from the spec: `norm_boxes(boxes, shape)` from the missing
`utils` module; "normalized = (pixel − 0)/(dim − 1) per axis pair (y1,x1,y2,x2
scaled by (H−1,W−1,H−1,W−1))". -/
def norm_boxes (b : Box) (H W : Nat) : Box :=
  ⟨b.y1 / ((H : ℚ) - 1), b.x1 / ((W : ℚ) - 1),
   b.y2 / ((H : ℚ) - 1), b.x2 / ((W : ℚ) - 1)⟩

/-- Modelled from the spec: `denorm_boxes(boxes, shape)` from the missing
`utils` module; "denormalize is the exact inverse" of `norm_boxes`, so each
axis is scaled back by (dim − 1). -/
def denorm_boxes (b : Box) (H W : Nat) : Box :=
  ⟨b.y1 * ((H : ℚ) - 1), b.x1 * ((W : ℚ) - 1),
   b.y2 * ((H : ℚ) - 1), b.x2 * ((W : ℚ) - 1)⟩

/-- `mrcnn.py` line 252-253: index of the first detection row whose
`class_id` column equals 0, or the row count when no row is zero
(`List.findIdx` returns the length when the predicate never holds, exactly
like the numpy fallback `detections.shape[0]`). -/
def firstZeroIx (dets : List DetRow) : Nat :=
  dets.findIdx (fun d => decide (d.class_id = 0))

/-- `mrcnn.py` line 259: select one class channel of a small mask,
`mrcnn_mask[i, :, :, c]`. -/
def sliceChannel (m : SmallMask) (c : Nat) : List (List ℚ) :=
  m.map (fun row => row.map (fun px => px.getD c 0))

/-- `mrcnn.py` lines 263-270: normalize the pixel window against the molded
image shape and build the affine map applied to every box: subtract the
normalized window top-left, divide per axis by the normalized window height
and width.  `wN` is the already-normalized window. -/
def shiftScaleBox (wN : Box) (b : Box) : Box :=
  let wh := wN.y2 - wN.y1
  let ww := wN.x2 - wN.x1
  ⟨(b.y1 - wN.y1) / wh, (b.x1 - wN.x1) / ww,
   (b.y2 - wN.y1) / wh, (b.x2 - wN.x1) / ww⟩

/-- `mrcnn.py` lines 261-272 as one function: the full map from a detection
box in normalized molded-image coordinates to original-image pixel
coordinates.  `window` is in molded-image pixel coordinates, `mold` is the
molded-image (H, W), `orig` the original-image (H, W). -/
def mapBoxToOriginal (window : Box) (mold orig : Nat × Nat) (b : Box) : Box :=
  denorm_boxes (shiftScaleBox (norm_boxes window mold.1 mold.2) b) orig.1 orig.2

/-- `mrcnn.py` lines 276-277: a row is kept iff the mapped box has positive
area; rows with `(y2 - y1) * (x2 - x1) <= 0` are deleted. -/
def keepBox (b : Box) : Bool :=
  decide (0 < (b.y2 - b.y1) * (b.x2 - b.x1))

/-- Modelled from the spec: `unmold_mask` / `resize_mask_to_box` from the
missing `utils` module; "resizes a small probability mask to the pixel extent
of `box`, thresholds at 0.5, and writes it into a zero array of
`original_shape`; pixels outside `box` are 0".  The interior resampling is
modelled as nearest-neighbour sampling; the claims checked here depend only
on the output shape (original H × W). -/
def unmold_mask (mask : List (List ℚ)) (b : Box) (origH origW : Nat) :
    List (List Bool) :=
  (List.range origH).map fun y =>
    (List.range origW).map fun x =>
      if b.y1 ≤ (y : ℚ) ∧ (y : ℚ) < b.y2 ∧ b.x1 ≤ (x : ℚ) ∧ (x : ℚ) < b.x2 then
        let u := ((y : ℚ) - b.y1) / (b.y2 - b.y1)
        let v := ((x : ℚ) - b.x1) / (b.x2 - b.x1)
        let yi := (truncToInt (u * mask.length)).toNat
        let xi := (truncToInt (v * (mask.getD 0 []).length)).toNat
        decide ((1 : ℚ) / 2 ≤ (mask.getD yi []).getD xi 0)
      else
        false

/-- `mrcnn.py` lines 287-293: stack the per-instance full masks along a new
trailing axis.  When every element of `ms` has shape H × W this is
`np.stack(ms, axis=-1)`, and for `ms = []` it is `np.empty((H, W, 0))`: the
result always has H rows of W cells, each cell holding one boolean per
instance. -/
def stackMasks (H W : Nat) (ms : List (List (List Bool))) :
    List (List (List Bool)) :=
  (List.range H).map fun y =>
    (List.range W).map fun x =>
      ms.map fun m => (m.getD y []).getD x false

/-- A row of the intermediate arrays of `unmold_detections` after slicing to
the first `N` detections: mapped box, integer class id, score, and the
selected small mask channel. -/
structure KRow where
  box : Box
  cid : Int
  score : ℚ
  mask : List (List ℚ)
deriving Repr, DecidableEq

/-- Simultaneous zip of the four arrays `boxes`, `class_ids`, `scores`,
`masks`; `np.delete` with a shared index set on four equal-length arrays is
a filter over this zip. -/
def zip4 : List Box → List Int → List ℚ → List (List (List ℚ)) → List KRow
  | b :: bs, c :: cs, s :: ss, m :: ms => ⟨b, c, s, m⟩ :: zip4 bs cs ss ms
  | _, _, _, _ => []

/-- The result record of `unmold_detections`: pixel boxes, integer class
ids, scores, and the full masks stacked along the last axis (H × W × N). -/
structure UnmoldResult where
  boxes : List Box
  class_ids : List Int
  scores : List ℚ
  masks : List (List (List Bool))
deriving Repr, DecidableEq

/-- `mrcnn.py` lines 256-257: the detections truncated to the first `N`
rows. -/
def truncDets (detections : List DetRow) : List DetRow :=
  detections.take (firstZeroIx detections)

/-- `mrcnn.py` line 257: the integer class ids of the first `N` rows
(`detections[:N, 4].astype(np.int32)`). -/
def classIdsOf (detections : List DetRow) : List Int :=
  (truncDets detections).map (fun d => truncToInt d.class_id)

/-- `mrcnn.py` line 259: `masks = mrcnn_mask[np.arange(N), :, :, class_ids]`,
the class-specific mask channel of each of the first `N` rows. -/
def selectedMasks (detections : List DetRow) (mrcnn_mask : List SmallMask) :
    List (List (List ℚ)) :=
  (List.zip (mrcnn_mask.take (firstZeroIx detections)) (classIdsOf detections)).map
    (fun p => sliceChannel p.1 p.2.toNat)

/-- `mrcnn.py` lines 256, 261-272: the first `N` detection boxes mapped to
original-image pixel coordinates. -/
def mappedBoxes (window : Box) (mold orig : Nat × Nat)
    (detections : List DetRow) : List Box :=
  ((truncDets detections).map (·.box)).map (mapBoxToOriginal window mold orig)

/-- `mrcnn.py` lines 274-284: the rows surviving the zero-area filter
(`np.delete` with one shared index set on the four equal-length arrays is a
filter over their zip). -/
def keptRows (detections : List DetRow) (mrcnn_mask : List SmallMask)
    (orig mold : Nat × Nat) (window : Box) : List KRow :=
  (zip4 (mappedBoxes window mold orig detections) (classIdsOf detections)
    ((truncDets detections).map (·.score)) (selectedMasks detections mrcnn_mask)).filter
    (fun r => keepBox r.box)

/-- `MaskRCNN.unmold_detections` (`mrcnn.py` lines 229-295).
Truncates the detections at the first zero-class row, selects the mask
channel of each row by class id, maps boxes from normalized molded-image
coordinates to original-image pixels, deletes rows with non-positive box
area, resizes each surviving mask to the original image canvas and stacks
the masks along a trailing axis. -/
def unmold_detections (detections : List DetRow) (mrcnn_mask : List SmallMask)
    (orig mold : Nat × Nat) (window : Box) : UnmoldResult :=
  let kept := keptRows detections mrcnn_mask orig mold window
  let full_masks := kept.map (fun r => unmold_mask r.mask r.box orig.1 orig.2)
  ⟨kept.map (·.box), kept.map (·.cid), kept.map (·.score),
   stackMasks orig.1 orig.2 full_masks⟩

/-- The configuration fields of `mrcnn.py` that the verified pipeline code
reads (the `Config` collaborator). -/
structure Config where
  BATCH_SIZE : Nat
  NUM_CLASSES : Nat
  IMAGE_SHAPE_H : Nat
  IMAGE_SHAPE_W : Nat
deriving Repr, DecidableEq

/-- An input image; only its shape matters to the verified pipeline code. -/
structure Image where
  H : Nat
  W : Nat
  C : Nat
deriving Repr, DecidableEq

/-- The per-image output of the external `resize_image` collaborator as used
by `mold_inputs`: the molded image shape, the window in molded-image pixel
coordinates, and the scale (padding and crop are not read afterwards). -/
structure Molding where
  moldedH : Nat
  moldedW : Nat
  moldedC : Nat
  window : Box
  scale : ℚ
deriving Repr, DecidableEq

/-- Modelled from the spec: `compose_image_meta` from the missing `utils`
module; the image meta is a fixed-length numeric vector that "encodes
original shape, molded shape, window, scale, active-class mask", laid out in
that order behind the image id. -/
def compose_image_meta (image_id : ℚ) (original_shape molded_shape : List ℚ)
    (window : Box) (scale : ℚ) (active_class_ids : List ℚ) : List ℚ :=
  [image_id] ++ original_shape ++ molded_shape ++
    [window.y1, window.x1, window.y2, window.x2] ++ [scale] ++ active_class_ids

/-- Number of meta entries in front of the active-class portion: image id
(1) + original shape (3) + molded shape (3) + window (4) + scale (1). -/
def metaFixedLen : Nat := 12

/-- The active-class portion of an image meta vector: everything after the
fixed-length head. -/
def metaActivePart (meta : List ℚ) : List ℚ :=
  meta.drop metaFixedLen

/-- `MaskRCNN.mold_inputs` (`mrcnn.py` lines 189-227), per image: run the
external resize, then compose the image meta with image id 0 and an all-zero
active-class vector of length `NUM_CLASSES`.  Returns the molded shapes, the
metas and the windows (the pixel content of the molded images is opaque and
not represented). -/
def mold_inputs (cfg : Config) (resize : Image → Molding)
    (images : List Image) :
    List (Nat × Nat × Nat) × List (List ℚ) × List Box :=
  let per := images.map (fun img =>
    let m := resize img
    let meta := compose_image_meta 0
        [(img.H : ℚ), (img.W : ℚ), (img.C : ℚ)]
        [(m.moldedH : ℚ), (m.moldedW : ℚ), (m.moldedC : ℚ)]
        m.window m.scale (List.replicate cfg.NUM_CLASSES 0)
    ((m.moldedH, m.moldedW, m.moldedC), meta, m.window))
  (per.map (·.1), per.map (·.2.1), per.map (·.2.2))

/-- The error kinds `detect` raises before invoking the predictor (the two
`assert` statements in `mrcnn.py` lines 308-320, named as in the spec). -/
inductive DetectError where
  | BatchSizeMismatch
  | InconsistentImageShape
deriving Repr, DecidableEq

/-- What the opaque Keras predictor returns, restricted to the two outputs
`detect` consumes: per-image detections and per-image raw mask stacks. -/
structure PredOut where
  detections : List (List DetRow)
  mrcnn_mask : List (List SmallMask)

/-- One entry of the result list of `detect`. -/
structure ResultRecord where
  rois : List Box
  class_ids : List Int
  scores : List ℚ
  masks : List (List (List Bool))
deriving Repr, DecidableEq

/-- Repackaging of an `unmold_detections` result as the per-image result
dict of `detect` (`mrcnn.py` lines 340-347). -/
def toRecord (r : UnmoldResult) : ResultRecord :=
  ⟨r.boxes, r.class_ids, r.scores, r.masks⟩

/-- The `unmold_detections` call `detect` makes for image `i` of the batch
(`mrcnn.py` lines 333-339): the predictor's detections and raw masks for
image `i`, the original shape of image `i`, the molded shape of image `i`,
and the window of image `i`. -/
def unmoldFor (cfg : Config) (resize : Image → Molding)
    (predictor : List (Nat × Nat × Nat) → List (List ℚ) → PredOut)
    (images : List Image) (i : Nat) : UnmoldResult :=
  let molded := mold_inputs cfg resize images
  let out := predictor molded.1 molded.2.1
  let img := images.getD i ⟨0, 0, 0⟩
  let ms := molded.1.getD i (0, 0, 0)
  unmold_detections (out.detections.getD i []) (out.mrcnn_mask.getD i [])
    (img.H, img.W) (ms.1, ms.2.1) (molded.2.2.getD i ⟨0, 0, 0, 0⟩)

/-- `MaskRCNN.detect` (`mrcnn.py` lines 297-348).  Checks the batch size,
molds the inputs, checks that all molded shapes agree, invokes the opaque
predictor for the whole batch, and unmolds each image's detections in input
order.  The predictor is a function parameter receiving the molded shapes
and metas (it also receives anchors in the source; no claim about `detect`
depends on them, and the anchor cache is verified separately on
`get_anchors`). -/
def detect (cfg : Config) (resize : Image → Molding)
    (predictor : List (Nat × Nat × Nat) → List (List ℚ) → PredOut)
    (images : List Image) : Except DetectError (List ResultRecord) :=
  if images.length ≠ cfg.BATCH_SIZE then
    .error .BatchSizeMismatch
  else
    let moldedShapes := (mold_inputs cfg resize images).1
    let image_shape := moldedShapes.getD 0 (0, 0, 0)
    if moldedShapes.any (fun s => s ≠ image_shape) then
      .error .InconsistentImageShape
    else
      .ok ((List.range images.length).map
        (fun i => toRecord (unmoldFor cfg resize predictor images i)))

/-- The build-time image size check of `MaskRCNN.build` (`mrcnn.py` lines
48-55): raise unless both configured image dimensions are divisible by
2^6 = 64.  The spec names this error kind `InvalidConfiguration`. -/
inductive BuildError where
  | InvalidConfiguration
deriving Repr, DecidableEq

/-- `MaskRCNN.build`, reduced to its checked precondition (the rest of the
function only assembles opaque Keras layers): fails iff the configured image
height or width is not divisible by 64. -/
def buildCheck (cfg : Config) : Except BuildError Unit :=
  if cfg.IMAGE_SHAPE_H % 2 ^ 6 ≠ 0 ∨ cfg.IMAGE_SHAPE_W % 2 ^ 6 ≠ 0 then
    .error .InvalidConfiguration
  else
    .ok ()

/-- A molded-image shape tuple, the key of the anchor cache. -/
abbrev ShapeT := Nat × Nat × Nat

/-- The anchor cache `self._anchor_cache`: a map from shape tuples to the
normalized anchor pyramids, embedded as an association list. -/
abbrev AnchorCache := List (ShapeT × List Box)

/-- `MaskRCNN.get_anchors` (`mrcnn.py` lines 350-370) with the instance
state made explicit.  `gen` stands for the whole generation path
(`compute_backbone_shapes`, `generate_pyramid_anchors`, `norm_boxes`), which
lives in the missing `utils` module and depends only on the shape and the
fixed configuration.  Returns the anchors, the updated cache, and whether
generation ran on this call. -/
def get_anchors (gen : ShapeT → List Box) (cache : AnchorCache)
    (shape : ShapeT) : List Box × AnchorCache × Bool :=
  match cache.lookup shape with
  | some a => (a, cache, false)
  | none => let a := gen shape; (a, (shape, a) :: cache, true)

/-- Run a sequence of `get_anchors` calls, recording for each call the
requested shape and whether generation ran. -/
def genEvents (gen : ShapeT → List Box) :
    List ShapeT → AnchorCache → List (ShapeT × Bool)
  | [], _ => []
  | s :: rest, c =>
      let r := get_anchors gen c s
      (s, r.2.2) :: genEvents gen rest r.2.1

/-- The all-zero detection row, used as the `getD` default when stating
index-wise properties. -/
def dfltRow : DetRow := ⟨⟨0, 0, 0, 0⟩, 0, 0⟩

/-- The data `unmold_detections` extracts for detection row `i` before the
zero-area filter: the mapped box, the integer class id, the score, and the
class-selected mask channel. -/
def rowAt (window : Box) (mold orig : Nat × Nat) (detections : List DetRow)
    (mrcnn_mask : List SmallMask) (i : Nat) : KRow :=
  let dr := detections.getD i dfltRow
  let cid := truncToInt dr.class_id
  ⟨mapBoxToOriginal window mold orig dr.box, cid, dr.score,
   sliceChannel (mrcnn_mask.getD i []) cid.toNat⟩

/-- Modelled from the spec, for comparison with the source (claim C5): the
box map exactly as §4.5 step 3 words it, with the window taken in
molded-image PIXEL coordinates ("convert window to pixel space in
molded-image coordinates"): subtract the pixel window top-left, divide by
the pixel window height/width, then denormalize against the original image
shape.  The source instead normalizes the window first. -/
def mapBoxSpecPixelWindow (window : Box) (orig : Nat × Nat) (b : Box) : Box :=
  denorm_boxes (shiftScaleBox window b) orig.1 orig.2

section Lemmas

/-- `firstZeroIx` never exceeds the number of detection rows. -/
theorem firstZeroIx_le_length (d : List DetRow) : firstZeroIx d ≤ d.length :=
  List.findIdx_le_length _

/-- Rows strictly before `firstZeroIx` have a non-zero class id. -/
theorem classId_ne_zero_of_lt_firstZeroIx {d : List DetRow} {j : Nat}
    (h : j < firstZeroIx d) : (d.getD j dfltRow).class_id ≠ 0 := by
  have hl : j < d.length := lt_of_lt_of_le h (firstZeroIx_le_length d)
  simp only [firstZeroIx] at h
  have hb := List.not_of_lt_findIdx h
  rw [List.getD_eq_getElem?_getD, List.getElem?_eq_getElem hl]
  simpa using hb

/-- When `firstZeroIx` is an actual index, the row there has class id 0. -/
theorem classId_at_firstZeroIx {d : List DetRow}
    (h : firstZeroIx d < d.length) :
    (d.getD (firstZeroIx d) dfltRow).class_id = 0 := by
  have h2 : List.findIdx (fun x => decide (x.class_id = 0)) d < d.length := h
  have hb := @List.findIdx_getElem _ _ d h2
  rw [List.getD_eq_getElem?_getD, List.getElem?_eq_getElem h]
  simpa using hb

/-- Truncating at the first zero-class row is idempotent for the zero
index: the truncated list has no zero-class row, so its own first zero
index is its full length. -/
theorem firstZeroIx_take (d : List DetRow) :
    firstZeroIx (d.take (firstZeroIx d)) = firstZeroIx d := by
  induction d with
  | nil => rfl
  | cons x xs ih =>
      by_cases h : x.class_id = 0
      · simp [firstZeroIx, List.findIdx_cons, h]
      · simp [firstZeroIx, List.findIdx_cons, h, List.take_succ_cons, ih]

/-- Truncating the already-truncated detections changes nothing. -/
theorem truncDets_idem (d : List DetRow) : truncDets (truncDets d) = truncDets d := by
  simp [truncDets, firstZeroIx_take, List.take_take]

/-- Class id extraction only reads the first `N` rows. -/
theorem classIdsOf_trunc (d : List DetRow) :
    classIdsOf (truncDets d) = classIdsOf d := by
  simp [classIdsOf, truncDets_idem]

/-- Mask selection only reads the first `N` rows of detections and raw
masks. -/
theorem selectedMasks_trunc (d : List DetRow) (m : List SmallMask) :
    selectedMasks (truncDets d) (m.take (firstZeroIx d)) = selectedMasks d m := by
  have hN : firstZeroIx (truncDets d) = firstZeroIx d := firstZeroIx_take d
  simp [selectedMasks, hN, classIdsOf_trunc, List.take_take]

/-- Box mapping only reads the first `N` rows. -/
theorem mappedBoxes_trunc (w : Box) (mold orig : Nat × Nat) (d : List DetRow) :
    mappedBoxes w mold orig (truncDets d) = mappedBoxes w mold orig d := by
  simp [mappedBoxes, truncDets_idem]

/-- The surviving rows only depend on the first `N` rows of the inputs. -/
theorem keptRows_trunc (d : List DetRow) (m : List SmallMask)
    (orig mold : Nat × Nat) (w : Box) :
    keptRows (truncDets d) (m.take (firstZeroIx d)) orig mold w
      = keptRows d m orig mold w := by
  simp [keptRows, mappedBoxes_trunc, classIdsOf_trunc, selectedMasks_trunc,
    truncDets_idem]

/-- `getD` on a mapped range evaluates the function. -/
theorem getD_range_map {β : Type _} (f : Nat → β) (dflt : β) {n i : Nat}
    (hi : i < n) : ((List.range n).map f).getD i dflt = f i := by
  rw [List.getD_eq_getElem?_getD, List.getElem?_eq_getElem (by simpa using hi)]
  simp

/-- A map over a length-`n` prefix, written index-wise over `range n`. -/
theorem map_take_eq_range_map {α β : Type _} (L : List α) (n : Nat)
    (hn : n ≤ L.length) (f : α → β) (dflt : α) :
    (L.take n).map f = (List.range n).map (fun i => f (L.getD i dflt)) := by
  apply List.ext_getElem
  · simp [Nat.min_eq_left hn]
  · intro i h1 h2
    have hiL : i < L.length := by
      simp only [List.length_map, List.length_take] at h1
      omega
    simp only [List.getElem_map, List.getElem_take, List.getElem_range]
    rw [List.getD_eq_getElem?_getD, List.getElem?_eq_getElem hiL]
    simp

/-- The selected masks, written index-wise over `range N`. -/
theorem selectedMasks_eq_range (d : List DetRow) (m : List SmallMask)
    (hm : firstZeroIx d ≤ m.length) :
    selectedMasks d m = (List.range (firstZeroIx d)).map
      (fun i => sliceChannel (m.getD i [])
        (truncToInt ((d.getD i dfltRow).class_id)).toNat) := by
  have hd := firstZeroIx_le_length d
  apply List.ext_getElem
  · simp [selectedMasks, classIdsOf, truncDets, Nat.min_eq_left hm,
      Nat.min_eq_left hd]
  · intro i h1 h2
    have hiN : i < firstZeroIx d := by simpa using h2
    have him : i < m.length := lt_of_lt_of_le hiN hm
    have hid : i < d.length := lt_of_lt_of_le hiN hd
    simp only [selectedMasks, classIdsOf, truncDets, List.getElem_map,
      List.getElem_zip, List.getElem_take, List.getElem_range]
    rw [List.getD_eq_getElem?_getD, List.getElem?_eq_getElem him,
      List.getD_eq_getElem?_getD, List.getElem?_eq_getElem hid]
    simp

/-- `zip4` over four maps of one list fuses into one map. -/
theorem zip4_map {α : Type _} (L : List α) (f1 : α → Box) (f2 : α → Int)
    (f3 : α → ℚ) (f4 : α → List (List ℚ)) :
    zip4 (L.map f1) (L.map f2) (L.map f3) (L.map f4)
      = L.map (fun a => ⟨f1 a, f2 a, f3 a, f4 a⟩) := by
  induction L with
  | nil => rfl
  | cons a as ih => simp [zip4, ih]

/-- The surviving rows of `unmold_detections`, characterized index-wise:
row `i < N` survives iff its mapped box passes the positive-area test, and
a surviving row carries exactly the data of input row `i`. -/
theorem keptRows_eq_range (d : List DetRow) (m : List SmallMask)
    (orig mold : Nat × Nat) (w : Box) (hm : firstZeroIx d ≤ m.length) :
    keptRows d m orig mold w
      = ((List.range (firstZeroIx d)).filter
          (fun i => keepBox (rowAt w mold orig d m i).box)).map
          (rowAt w mold orig d m) := by
  have hd := firstZeroIx_le_length d
  have h1 : mappedBoxes w mold orig d
      = (List.range (firstZeroIx d)).map
        (fun i => mapBoxToOriginal w mold orig ((d.getD i dfltRow).box)) := by
    rw [mappedBoxes, List.map_map]
    exact map_take_eq_range_map d (firstZeroIx d) hd _ dfltRow
  have h2 : classIdsOf d
      = (List.range (firstZeroIx d)).map
        (fun i => truncToInt ((d.getD i dfltRow).class_id)) :=
    map_take_eq_range_map d (firstZeroIx d) hd _ dfltRow
  have h3 : (truncDets d).map (·.score)
      = (List.range (firstZeroIx d)).map (fun i => (d.getD i dfltRow).score) :=
    map_take_eq_range_map d (firstZeroIx d) hd _ dfltRow
  rw [keptRows, h1, h2, h3, selectedMasks_eq_range d m hm, zip4_map,
    List.filter_map]
  rfl

/-- `stackMasks` always has `H` rows. -/
theorem stackMasks_length (H W : Nat) (ms : List (List (List Bool))) :
    (stackMasks H W ms).length = H := by
  simp [stackMasks]

/-- Every row of `stackMasks` has `W` cells and every cell holds one entry
per stacked mask. -/
theorem stackMasks_shape (H W : Nat) (ms : List (List (List Bool))) :
    ∀ row ∈ stackMasks H W ms,
      row.length = W ∧ ∀ cell ∈ row, cell.length = ms.length := by
  intro row hrow
  simp only [stackMasks, List.mem_map] at hrow
  obtain ⟨y, hy, rfl⟩ := hrow
  refine ⟨by simp, ?_⟩
  intro cell hc
  simp only [List.mem_map] at hc
  obtain ⟨x, hx, rfl⟩ := hc
  simp

/-- Casting a natural number into the rational class id column and back
through the int32 truncation is the identity. -/
theorem truncToInt_natCast (c : Nat) : truncToInt (c : ℚ) = c := by
  have h0 : (0 : ℚ) ≤ (c : ℚ) := by exact_mod_cast Nat.zero_le c
  simp only [truncToInt, if_pos h0]
  rw [Rat.floor_def']
  simp

/-- The boxes field of `unmold_detections`, spelled out. -/
theorem unmold_boxes_eq (d : List DetRow) (m : List SmallMask)
    (orig mold : Nat × Nat) (w : Box) :
    (unmold_detections d m orig mold w).boxes
      = (keptRows d m orig mold w).map (·.box) := rfl

/-- The class ids field of `unmold_detections`, spelled out. -/
theorem unmold_class_ids_eq (d : List DetRow) (m : List SmallMask)
    (orig mold : Nat × Nat) (w : Box) :
    (unmold_detections d m orig mold w).class_ids
      = (keptRows d m orig mold w).map (·.cid) := rfl

/-- The scores field of `unmold_detections`, spelled out. -/
theorem unmold_scores_eq (d : List DetRow) (m : List SmallMask)
    (orig mold : Nat × Nat) (w : Box) :
    (unmold_detections d m orig mold w).scores
      = (keptRows d m orig mold w).map (·.score) := rfl

/-- The masks field of `unmold_detections`, spelled out. -/
theorem unmold_masks_eq (d : List DetRow) (m : List SmallMask)
    (orig mold : Nat × Nat) (w : Box) :
    (unmold_detections d m orig mold w).masks
      = stackMasks orig.1 orig.2
          ((keptRows d m orig mold w).map
            (fun r => unmold_mask r.mask r.box orig.1 orig.2)) := rfl

/-- The result record of `unmold_detections` is always rectangular: the
three row arrays agree in length, the mask stack is original-H by
original-W, and every cell stacks one boolean per output row. -/
theorem unmold_shapes (d : List DetRow) (m : List SmallMask)
    (orig mold : Nat × Nat) (w : Box) :
    (unmold_detections d m orig mold w).class_ids.length
        = (unmold_detections d m orig mold w).boxes.length
    ∧ (unmold_detections d m orig mold w).scores.length
        = (unmold_detections d m orig mold w).boxes.length
    ∧ (unmold_detections d m orig mold w).masks.length = orig.1
    ∧ ∀ row ∈ (unmold_detections d m orig mold w).masks,
        row.length = orig.2
        ∧ ∀ cell ∈ row,
            cell.length = (unmold_detections d m orig mold w).boxes.length := by
  refine ⟨?_, ?_, ?_, ?_⟩
  · rw [unmold_class_ids_eq, unmold_boxes_eq]; simp
  · rw [unmold_scores_eq, unmold_boxes_eq]; simp
  · rw [unmold_masks_eq]; exact stackMasks_length _ _ _
  · rw [unmold_masks_eq, unmold_boxes_eq]
    intro row hrow
    have hs := stackMasks_shape _ _ _ row hrow
    refine ⟨hs.1, ?_⟩
    intro cell hc
    have h5 := hs.2 cell hc
    simp only [List.length_map] at h5 ⊢
    exact h5

/-- `unmold_detections` gives the same result on the truncated inputs: rows
at and after the first zero-class row never influence the output. -/
theorem unmold_detections_trunc (d : List DetRow) (m : List SmallMask)
    (orig mold : Nat × Nat) (w : Box) :
    unmold_detections (truncDets d) (m.take (firstZeroIx d)) orig mold w
      = unmold_detections d m orig mold w := by
  simp only [unmold_detections, keptRows_trunc]

/-- `mold_inputs` produces one molded shape per image. -/
theorem mold_inputs_shapes_length (cfg : Config) (resize : Image → Molding)
    (images : List Image) :
    (mold_inputs cfg resize images).1.length = images.length := by
  simp [mold_inputs]

/-- `mold_inputs` produces one meta per image. -/
theorem mold_inputs_metas_length (cfg : Config) (resize : Image → Molding)
    (images : List Image) :
    (mold_inputs cfg resize images).2.1.length = images.length := by
  simp [mold_inputs]

/-- Projections of `toRecord`. -/
theorem toRecord_fields (r : UnmoldResult) :
    (toRecord r).rois = r.boxes ∧ (toRecord r).class_ids = r.class_ids
    ∧ (toRecord r).scores = r.scores ∧ (toRecord r).masks = r.masks :=
  ⟨rfl, rfl, rfl, rfl⟩

/-- Membership of `getD` values for indices below the length. -/
theorem getD_mem_of_lt {α : Type _} (L : List α) (k : Nat) (dflt : α)
    (hk : k < L.length) : L.getD k dflt ∈ L := by
  rw [List.getD_eq_getElem?_getD, List.getElem?_eq_getElem hk]
  exact List.getElem_mem hk

/-- `unmoldFor` unfolded to its `unmold_detections` call. -/
theorem unmoldFor_eq (cfg : Config) (resize : Image → Molding)
    (predictor : List (Nat × Nat × Nat) → List (List ℚ) → PredOut)
    (images : List Image) (i : Nat) :
    unmoldFor cfg resize predictor images i
      = unmold_detections
          ((predictor (mold_inputs cfg resize images).1
              (mold_inputs cfg resize images).2.1).detections.getD i [])
          ((predictor (mold_inputs cfg resize images).1
              (mold_inputs cfg resize images).2.1).mrcnn_mask.getD i [])
          ((images.getD i ⟨0, 0, 0⟩).H, (images.getD i ⟨0, 0, 0⟩).W)
          (((mold_inputs cfg resize images).1.getD i (0, 0, 0)).1,
           ((mold_inputs cfg resize images).1.getD i (0, 0, 0)).2.1)
          ((mold_inputs cfg resize images).2.2.getD i ⟨0, 0, 0, 0⟩) := rfl

/-- `get_anchors` never removes a cached shape: a shape present in the
cache is still present after any call. -/
theorem get_anchors_preserves_lookup (gen : ShapeT → List Box)
    (cache : AnchorCache) (s shape : ShapeT)
    (h : (cache.lookup shape).isSome) :
    (((get_anchors gen cache s).2.1).lookup shape).isSome := by
  cases hc : cache.lookup s with
  | some a => simp only [get_anchors, hc]; exact h
  | none =>
      simp only [get_anchors, hc]
      rw [List.lookup_cons]
      by_cases hs : (shape == s) = true
      · simp [hs]
      · simp only [Bool.not_eq_true] at hs
        rw [hs]
        exact h

/-- Once a shape is in the cache, no later call generates anchors for it. -/
theorem genEvents_count_zero (gen : ShapeT → List Box) (reqs : List ShapeT)
    (shape : ShapeT) :
    ∀ cache : AnchorCache, (cache.lookup shape).isSome →
      ((genEvents gen reqs cache).filter
        (fun e => decide (e.1 = shape) && e.2)).length = 0 := by
  induction reqs with
  | nil => intro cache _; rfl
  | cons s rest ih =>
      intro cache h
      cases hc : cache.lookup s with
      | some a =>
          have hr := ih cache h
          simp only [genEvents, get_anchors, hc, List.filter_cons, Bool.and_false]
          simpa using hr
      | none =>
          have hs : s ≠ shape := by
            intro heq
            rw [heq] at hc
            rw [hc] at h
            exact Bool.noConfusion h
          have hb : (shape == s) = false := by
            simp only [beq_eq_false_iff_ne, ne_eq]
            exact fun h3 => hs h3.symm
          have h2 : ((((s, gen s) :: cache) : AnchorCache).lookup shape).isSome := by
            rw [List.lookup_cons, hb]
            exact h
          have hr := ih _ h2
          simp only [genEvents, get_anchors, hc, List.filter_cons, Bool.and_true]
          have hps : decide (s = shape) = false := by
            simp [hs]
          rw [hps]
          simpa using hr

/-- Anchor generation runs at most once per shape over any call sequence. -/
theorem genEvents_count_le_one (gen : ShapeT → List Box) (reqs : List ShapeT)
    (shape : ShapeT) :
    ∀ cache : AnchorCache,
      ((genEvents gen reqs cache).filter
        (fun e => decide (e.1 = shape) && e.2)).length ≤ 1 := by
  induction reqs with
  | nil => intro cache; simp [genEvents]
  | cons s rest ih =>
      intro cache
      cases hc : cache.lookup s with
      | some a =>
          have hr := ih cache
          simp only [genEvents, get_anchors, hc, List.filter_cons, Bool.and_false]
          simpa using hr
      | none =>
          by_cases hs : s = shape
          · subst hs
            have h0 := genEvents_count_zero gen rest s ((s, gen s) :: cache)
              (by rw [List.lookup_cons_self]; rfl)
            simp only [genEvents, get_anchors, hc, List.filter_cons, Bool.and_true]
            simp [h0]
          · have hr := ih ((s, gen s) :: cache)
            have hps : decide (s = shape) = false := by simp [hs]
            simp only [genEvents, get_anchors, hc, List.filter_cons, Bool.and_true]
            rw [hps]
            simpa using hr

end Lemmas

section Claims

/-- C3: `unmold_detections` sets `N` to the index of the first detection
row whose class id column equals 0, or to the full row count when no row is
zero, and processes only the first `N` rows of detections and raw masks:
every row strictly before `N` has non-zero class id, the row at `N` (when it
exists) has class id 0, and truncating all inputs to `N` rows leaves the
output unchanged, so rows after the first zero-class row are never part of
the output even when their class id is non-zero. -/
theorem C3_first_zero_row_truncates (d : List DetRow) (m : List SmallMask)
    (orig mold : Nat × Nat) (w : Box) :
    firstZeroIx d ≤ d.length
    ∧ (∀ j, j < firstZeroIx d → (d.getD j dfltRow).class_id ≠ 0)
    ∧ (firstZeroIx d < d.length →
        (d.getD (firstZeroIx d) dfltRow).class_id = 0)
    ∧ unmold_detections (truncDets d) (m.take (firstZeroIx d)) orig mold w
        = unmold_detections d m orig mold w :=
  ⟨firstZeroIx_le_length d, fun _ hj => classId_ne_zero_of_lt_firstZeroIx hj,
   fun h => classId_at_firstZeroIx h, unmold_detections_trunc d m orig mold w⟩

/-- Witness for C3 at a concrete batch: a detections tensor with a non-zero
row, then a zero row, then another non-zero row has first zero index 1, and
the row found there has class id 0. -/
theorem C3_first_zero_row_truncates_witness :
    (([⟨⟨0, 0, 1, 1⟩, 1, 1⟩, ⟨⟨0, 0, 0, 0⟩, 0, 0⟩, ⟨⟨0, 0, 1, 1⟩, 2, 1⟩] :
        List DetRow).getD
      (firstZeroIx [⟨⟨0, 0, 1, 1⟩, 1, 1⟩, ⟨⟨0, 0, 0, 0⟩, 0, 0⟩,
        ⟨⟨0, 0, 1, 1⟩, 2, 1⟩]) dfltRow).class_id = 0 :=
  (C3_first_zero_row_truncates
    [⟨⟨0, 0, 1, 1⟩, 1, 1⟩, ⟨⟨0, 0, 0, 0⟩, 0, 0⟩, ⟨⟨0, 0, 1, 1⟩, 2, 1⟩]
    [] (1, 1) (1, 1) ⟨0, 0, 0, 0⟩).2.2.1 (by decide)

/-- C4: after mapping boxes to original-image pixel coordinates,
`unmold_detections` keeps exactly the rows whose mapped box passes the
positive-area test — a row is dropped, simultaneously from boxes, class
ids, scores and masks, iff its mapped box has zero or negative area — and a
detection with `y1 = y2` always fails the test. -/
theorem C4_zero_area_rows_dropped (d : List DetRow) (m : List SmallMask)
    (orig mold : Nat × Nat) (w : Box) (hm : firstZeroIx d ≤ m.length) :
    (keptRows d m orig mold w
      = ((List.range (firstZeroIx d)).filter
          (fun i => keepBox (rowAt w mold orig d m i).box)).map
          (rowAt w mold orig d m))
    ∧ (∀ i, i < firstZeroIx d →
        (d.getD i dfltRow).box.y1 = (d.getD i dfltRow).box.y2 →
        keepBox (rowAt w mold orig d m i).box = false)
    ∧ (unmold_detections d m orig mold w).boxes
        = (keptRows d m orig mold w).map (·.box)
    ∧ (unmold_detections d m orig mold w).class_ids
        = (keptRows d m orig mold w).map (·.cid)
    ∧ (unmold_detections d m orig mold w).scores
        = (keptRows d m orig mold w).map (·.score) := by
  refine ⟨keptRows_eq_range d m orig mold w hm, ?_, rfl, rfl, rfl⟩
  intro i _ hyy
  have hzero : (rowAt w mold orig d m i).box.y2
      - (rowAt w mold orig d m i).box.y1 = 0 := by
    rw [List.getD_eq_getElem?_getD] at hyy
    simp [rowAt, mapBoxToOriginal, denorm_boxes, shiftScaleBox, hyy]
  simp [keepBox, hzero]

/-- Witness for C4 at a concrete batch: the single detection row has
`y1 = y2 = 0`, and its mapped box fails the positive-area test. -/
theorem C4_zero_area_rows_dropped_witness :
    keepBox (rowAt ⟨0, 0, 64, 64⟩ (65, 65) (4, 4)
      [⟨⟨0, 0, 0, 1⟩, 2, 1/2⟩] [[[[1]]]] 0).box = false :=
  (C4_zero_area_rows_dropped [⟨⟨0, 0, 0, 1⟩, 2, 1/2⟩] [[[[1]]]] (4, 4)
    (65, 65) ⟨0, 0, 64, 64⟩ (by decide)).2.1 0 (by decide) (by decide)

/-- C6: the instance mask selected for a valid detection row `i < N` is
exactly the channel of the raw mask stack `mrcnn_mask[i]` whose index
equals that row's class id. -/
theorem C6_mask_channel_matches_class (d : List DetRow) (m : List SmallMask)
    (i c : Nat) (hi : i < firstZeroIx d) (hm : firstZeroIx d ≤ m.length)
    (hc : (d.getD i dfltRow).class_id = (c : ℚ)) :
    (selectedMasks d m).getD i [] = sliceChannel (m.getD i []) c := by
  rw [selectedMasks_eq_range d m hm, getD_range_map _ _ hi, hc,
    truncToInt_natCast]
  simp

/-- Witness for C6 at a concrete batch: one detection row of class 1 and a
1 × 1 raw mask with three channels selects channel 1. -/
theorem C6_mask_channel_matches_class_witness :
    (selectedMasks [⟨⟨0, 0, 1, 1⟩, 1, 9/10⟩] [[[[0, 1, 1/4]]]]).getD 0 []
      = sliceChannel [[[0, 1, 1/4]]] 1 :=
  C6_mask_channel_matches_class [⟨⟨0, 0, 1, 1⟩, 1, 9/10⟩] [[[[0, 1, 1/4]]]]
    0 1 (by decide) (by decide) (by decide)

/-- C8: the build-time configuration check fails with the
`InvalidConfiguration` error kind exactly when the configured image target
size is not divisible by 64 (the backbone halves spatial size six times),
and succeeds exactly when both configured dimensions are divisible by
64. -/
theorem C8_image_size_divisible_by_64 (cfg : Config) :
    (buildCheck cfg = .error .InvalidConfiguration ↔
      ¬ (cfg.IMAGE_SHAPE_H % 64 = 0 ∧ cfg.IMAGE_SHAPE_W % 64 = 0))
    ∧ (buildCheck cfg = .ok () ↔
      (cfg.IMAGE_SHAPE_H % 64 = 0 ∧ cfg.IMAGE_SHAPE_W % 64 = 0)) := by
  have h64 : (2 : Nat) ^ 6 = 64 := by norm_num
  unfold buildCheck
  rw [h64]
  by_cases h : cfg.IMAGE_SHAPE_H % 64 = 0 ∧ cfg.IMAGE_SHAPE_W % 64 = 0
  · rw [if_neg (by tauto)]
    simp [h]
  · rw [if_pos (by tauto)]
    simp [h]

/-- Witness for C8: a 100 × 64 configured image shape is rejected with
`InvalidConfiguration`, since 100 is not divisible by 64. -/
theorem C8_image_size_divisible_by_64_witness :
    buildCheck ⟨1, 2, 100, 64⟩ = .error .InvalidConfiguration :=
  (C8_image_size_divisible_by_64 ⟨1, 2, 100, 64⟩).1.mpr (by decide)

/-- C10: every image meta composed by `mold_inputs` has image id 0 and an
all-zero active-class portion of length `NUM_CLASSES`, so the active-class
portion is identical for every image of the batch and carries no per-image
class filtering information. -/
theorem C10_meta_image_id_zero_active_zero (cfg : Config)
    (resize : Image → Molding) (images : List Image) :
    (mold_inputs cfg resize images).2.1.length = images.length
    ∧ (∀ meta ∈ (mold_inputs cfg resize images).2.1,
        meta.getD 0 0 = 0
        ∧ metaActivePart meta = List.replicate cfg.NUM_CLASSES 0)
    ∧ ∀ m1 ∈ (mold_inputs cfg resize images).2.1,
        ∀ m2 ∈ (mold_inputs cfg resize images).2.1,
          metaActivePart m1 = metaActivePart m2 := by
  have key : ∀ meta ∈ (mold_inputs cfg resize images).2.1,
      meta.getD 0 0 = 0
      ∧ metaActivePart meta = List.replicate cfg.NUM_CLASSES 0 := by
    intro meta hmeta
    simp only [mold_inputs, List.map_map, List.mem_map, Function.comp] at hmeta
    obtain ⟨img, _, hEq⟩ := hmeta
    rw [← hEq]
    exact ⟨rfl, rfl⟩
  refine ⟨mold_inputs_metas_length cfg resize images, key, ?_⟩
  intro m1 h1 m2 h2
  rw [(key m1 h1).2, (key m2 h2).2]

/-- Witness for C10 at a concrete batch of one 5 × 7 image with two
classes: the composed meta has image id 0 and active-class portion
`[0, 0]`. -/
theorem C10_meta_image_id_zero_active_zero_witness :
    ∀ meta ∈ (mold_inputs ⟨1, 2, 64, 64⟩
        (fun _ => ⟨65, 65, 3, ⟨0, 0, 64, 64⟩, 1⟩) [⟨5, 7, 3⟩]).2.1,
      meta.getD 0 0 = 0 ∧ metaActivePart meta = List.replicate 2 0 :=
  (C10_meta_image_id_zero_active_zero ⟨1, 2, 64, 64⟩
    (fun _ => ⟨65, 65, 3, ⟨0, 0, 64, 64⟩, 1⟩) [⟨5, 7, 3⟩]).2.1

/-- C2: when no detection row survives (zero valid rows), result assembly
still succeeds with a well-formed empty record: boxes, class ids and scores
are zero-row, and the mask stack has shape original-H × original-W × 0
(every cell of the stack is the empty list). -/
theorem C2_empty_detections_wellformed (d : List DetRow) (m : List SmallMask)
    (orig mold : Nat × Nat) (w : Box)
    (h : keptRows d m orig mold w = []) :
    (unmold_detections d m orig mold w).boxes = []
    ∧ (unmold_detections d m orig mold w).class_ids = []
    ∧ (unmold_detections d m orig mold w).scores = []
    ∧ (unmold_detections d m orig mold w).masks.length = orig.1
    ∧ ∀ row ∈ (unmold_detections d m orig mold w).masks,
        row.length = orig.2 ∧ ∀ cell ∈ row, cell = [] := by
  refine ⟨by rw [unmold_boxes_eq, h]; rfl, by rw [unmold_class_ids_eq, h]; rfl,
    by rw [unmold_scores_eq, h]; rfl,
    by rw [unmold_masks_eq]; exact stackMasks_length _ _ _, ?_⟩
  rw [unmold_masks_eq, h]
  intro row hrow
  simp only [stackMasks, List.map_nil, List.mem_map] at hrow
  obtain ⟨y, _, hEq⟩ := hrow
  rw [← hEq]
  refine ⟨by simp, ?_⟩
  intro cell hc
  simp only [List.mem_map] at hc
  obtain ⟨x, _, hEq2⟩ := hc
  rw [← hEq2]

/-- Witness for C2 at a concrete batch: the single detection row maps to a
zero-area box, no row survives, and the result is the empty record with a
2 × 3 × 0 mask stack. -/
theorem C2_empty_detections_wellformed_witness :
    (unmold_detections [⟨⟨0, 0, 0, 1⟩, 2, 1/2⟩] [[[[1]]]] (2, 3) (65, 65)
        ⟨0, 0, 64, 64⟩).boxes = []
    ∧ (unmold_detections [⟨⟨0, 0, 0, 1⟩, 2, 1/2⟩] [[[[1]]]] (2, 3) (65, 65)
        ⟨0, 0, 64, 64⟩).masks.length = 2 :=
  ⟨(C2_empty_detections_wellformed [⟨⟨0, 0, 0, 1⟩, 2, 1/2⟩] [[[[1]]]] (2, 3)
      (65, 65) ⟨0, 0, 64, 64⟩ (by with_unfolding_all rfl)).1,
   (C2_empty_detections_wellformed [⟨⟨0, 0, 0, 1⟩, 2, 1/2⟩] [[[[1]]]] (2, 3)
      (65, 65) ⟨0, 0, 64, 64⟩ (by with_unfolding_all rfl)).2.2.2.1⟩

/-- C5 counterexample: the claim asserts that `unmold_detections` applies
the affine map exactly as the spec words it, with the window taken to
molded-image PIXEL coordinates.  At a concrete input — one detection box
(0,0,1,1), pixel window (0,0,64,64) in a 65 × 65 molded image, original
shape 5 × 5 — the code's output box differs from the box computed with the
pixel-space window, because the code first normalizes the window against
the molded shape. -/
theorem C5_pixel_window_map_counterexample :
    (unmold_detections [⟨⟨0, 0, 1, 1⟩, 1, 9/10⟩] [[[[1]]]] (5, 5) (65, 65)
        ⟨0, 0, 64, 64⟩).boxes
      ≠ [mapBoxSpecPixelWindow ⟨0, 0, 64, 64⟩ (5, 5) ⟨0, 0, 1, 1⟩] :=
  of_decide_eq_false (by with_unfolding_all rfl)

/-- C5 (amended): `unmold_detections` maps every valid detection box to
original-image pixel coordinates by first converting the pixel window to
NORMALIZED molded-image coordinates (`norm_boxes` against the molded
shape), then subtracting the normalized window's top-left corner, dividing
per axis by the normalized window's height and width, and denormalizing
against the original image shape. -/
theorem C5_window_normalized_affine_map (d : List DetRow)
    (m : List SmallMask) (orig mold : Nat × Nat) (w : Box)
    (hm : firstZeroIx d ≤ m.length) :
    (unmold_detections d m orig mold w).boxes
      = ((List.range (firstZeroIx d)).filter
          (fun i => keepBox (denorm_boxes
            (shiftScaleBox (norm_boxes w mold.1 mold.2)
              ((d.getD i dfltRow).box)) orig.1 orig.2))).map
        (fun i => denorm_boxes
          (shiftScaleBox (norm_boxes w mold.1 mold.2)
            ((d.getD i dfltRow).box)) orig.1 orig.2) := by
  rw [unmold_boxes_eq, keptRows_eq_range d m orig mold w hm, List.map_map]
  rfl

/-- Witness for C5 (amended) at a concrete batch: one detection box
(0,0,1,1) with pixel window (0,0,64,64) in a 65 × 65 molded image maps via
the normalized window. -/
theorem C5_window_normalized_affine_map_witness :
    (unmold_detections [⟨⟨0, 0, 1, 1⟩, 1, 9/10⟩] [[[[1]]]] (5, 5) (65, 65)
        ⟨0, 0, 64, 64⟩).boxes
      = ((List.range (firstZeroIx [⟨⟨0, 0, 1, 1⟩, 1, 9/10⟩])).filter
          (fun i => keepBox (denorm_boxes
            (shiftScaleBox (norm_boxes ⟨0, 0, 64, 64⟩ (65, 65).1 (65, 65).2)
              ((([⟨⟨0, 0, 1, 1⟩, 1, 9/10⟩] : List DetRow).getD i
                dfltRow).box)) (5, 5).1 (5, 5).2))).map
        (fun i => denorm_boxes
          (shiftScaleBox (norm_boxes ⟨0, 0, 64, 64⟩ (65, 65).1 (65, 65).2)
            ((([⟨⟨0, 0, 1, 1⟩, 1, 9/10⟩] : List DetRow).getD i
              dfltRow).box)) (5, 5).1 (5, 5).2) :=
  C5_window_normalized_affine_map [⟨⟨0, 0, 1, 1⟩, 1, 9/10⟩] [[[[1]]]] (5, 5)
    (65, 65) ⟨0, 0, 64, 64⟩ (by decide)

/-- C9: requesting anchors for a shape already served returns the cached
value without regenerating — the second call returns the identical cached
entry, the same cache, and reports no generation — and over any sequence of
calls, generation runs at most once per distinct shape tuple, so the cache
persists across calls for the lifetime of the detector state. -/
theorem C9_anchor_cache_hit_once (gen : ShapeT → List Box)
    (cache : AnchorCache) (shape : ShapeT) :
    (get_anchors gen (get_anchors gen cache shape).2.1 shape
      = ((get_anchors gen cache shape).1,
         (get_anchors gen cache shape).2.1, false))
    ∧ ∀ reqs : List ShapeT,
        ((genEvents gen reqs cache).filter
          (fun e => decide (e.1 = shape) && e.2)).length ≤ 1 := by
  constructor
  · cases hc : cache.lookup shape with
    | some a => simp [get_anchors, hc]
    | none => simp [get_anchors, hc, List.lookup_cons_self]
  · intro reqs
    exact genEvents_count_le_one gen reqs shape cache

/-- Witness for C9 at a concrete call sequence: requesting the shape
(65, 65, 3) twice and then (2, 2, 3) generates anchors exactly once for
(65, 65, 3). -/
theorem C9_anchor_cache_hit_once_witness :
    ((genEvents (fun _ => [⟨0, 0, 1, 1⟩])
        [(65, 65, 3), (65, 65, 3), (2, 2, 3)] []).filter
      (fun e => decide (e.1 = ((65, 65, 3) : ShapeT)) && e.2)).length ≤ 1 :=
  (C9_anchor_cache_hit_once (fun _ => [⟨0, 0, 1, 1⟩]) [] (65, 65, 3)).2
    [(65, 65, 3), (65, 65, 3), (2, 2, 3)]

/-- C7: `detect` fails before the predictor is ever invoked — the error
result is the same for every predictor — with `BatchSizeMismatch` when the
input count differs from the configured batch size, and with
`InconsistentImageShape` when two molded images of the batch have different
shapes; under the precondition (correct count and identical molded shapes)
neither check fires and the call returns the full result list. -/
theorem C7_detect_checks_before_predictor (cfg : Config)
    (resize : Image → Molding) (images : List Image) :
    (images.length ≠ cfg.BATCH_SIZE →
      ∀ p, detect cfg resize p images = .error .BatchSizeMismatch)
    ∧ (images.length = cfg.BATCH_SIZE →
       (∃ i j, i < images.length ∧ j < images.length ∧
          (mold_inputs cfg resize images).1.getD i (0, 0, 0)
            ≠ (mold_inputs cfg resize images).1.getD j (0, 0, 0)) →
      ∀ p, detect cfg resize p images = .error .InconsistentImageShape)
    ∧ (images.length = cfg.BATCH_SIZE →
       (∀ i j, i < images.length → j < images.length →
          (mold_inputs cfg resize images).1.getD i (0, 0, 0)
            = (mold_inputs cfg resize images).1.getD j (0, 0, 0)) →
      ∀ p, detect cfg resize p images
        = .ok ((List.range images.length).map
            (fun k => toRecord (unmoldFor cfg resize p images k)))) := by
  have hlen := mold_inputs_shapes_length cfg resize images
  refine ⟨?_, ?_, ?_⟩
  · intro h p
    simp [detect, h]
  · intro hb hex p
    obtain ⟨i, j, hi, hj, hne⟩ := hex
    have h0 : ∃ s ∈ (mold_inputs cfg resize images).1,
        s ≠ (mold_inputs cfg resize images).1.getD 0 (0, 0, 0) := by
      by_cases hi0 : (mold_inputs cfg resize images).1.getD i (0, 0, 0)
          = (mold_inputs cfg resize images).1.getD 0 (0, 0, 0)
      · refine ⟨(mold_inputs cfg resize images).1.getD j (0, 0, 0),
          getD_mem_of_lt _ j _ (by omega), ?_⟩
        intro hj0
        exact hne (hi0.trans hj0.symm)
      · exact ⟨(mold_inputs cfg resize images).1.getD i (0, 0, 0),
          getD_mem_of_lt _ i _ (by omega), hi0⟩
    have hany : ((mold_inputs cfg resize images).1.any
        (fun s => s ≠ (mold_inputs cfg resize images).1.getD 0 (0, 0, 0)))
          = true := by
      rw [List.any_eq_true]
      obtain ⟨s, hs, hne2⟩ := h0
      exact ⟨s, hs, by simpa using hne2⟩
    have hcond : ¬ (images.length ≠ cfg.BATCH_SIZE) := by simp [hb]
    simp only [detect]
    rw [if_neg hcond, if_pos hany]
  · intro hb hall p
    have hkey : ∀ s ∈ (mold_inputs cfg resize images).1,
        s = (mold_inputs cfg resize images).1.getD 0 (0, 0, 0) := by
      intro s hs
      obtain ⟨k, hk, hEq⟩ := List.mem_iff_getElem.mp hs
      have hk2 : k < images.length := by omega
      by_cases h02 : 0 < images.length
      · have hka := hall k 0 hk2 h02
        rw [List.getD_eq_getElem?_getD, List.getElem?_eq_getElem hk] at hka
        rw [← hEq]
        exact hka
      · omega
    have hany : ((mold_inputs cfg resize images).1.any
        (fun s => s ≠ (mold_inputs cfg resize images).1.getD 0 (0, 0, 0)))
          = false := by
      rw [List.any_eq_false]
      intro s hs
      simp [hkey s hs]
    have hcond : ¬ (images.length ≠ cfg.BATCH_SIZE) := by simp [hb]
    simp only [detect]
    rw [if_neg hcond, if_neg (by rw [hany]; simp)]

/-- Witness for C7 at a concrete call: one input image against a
configured batch size of two fails with `BatchSizeMismatch` for an
arbitrary concrete predictor. -/
theorem C7_detect_checks_before_predictor_witness :
    detect ⟨2, 3, 64, 64⟩ (fun _ => ⟨65, 65, 3, ⟨0, 0, 64, 64⟩, 1⟩)
      (fun _ _ => ⟨[], []⟩) [⟨5, 5, 3⟩] = .error .BatchSizeMismatch :=
  (C7_detect_checks_before_predictor ⟨2, 3, 64, 64⟩
    (fun _ => ⟨65, 65, 3, ⟨0, 0, 64, 64⟩, 1⟩) [⟨5, 5, 3⟩]).1
    (by decide) (fun _ _ => ⟨[], []⟩)

/-- C1: every batch accepted by `detect` yields exactly one result record
per input image, in input order (record `i` is the unmolding of image `i`'s
detections), and in each record the boxes, class ids and scores arrays
share one row count while the mask stack has shape original-H × original-W
with one boolean per output row in every cell (depth N along the last
axis). -/
theorem C1_detect_one_record_per_image (cfg : Config)
    (resize : Image → Molding)
    (predictor : List (Nat × Nat × Nat) → List (List ℚ) → PredOut)
    (images : List Image) (results : List ResultRecord)
    (hok : detect cfg resize predictor images = .ok results) :
    results.length = images.length
    ∧ ∀ i, i < images.length →
        results.getD i ⟨[], [], [], []⟩
          = toRecord (unmoldFor cfg resize predictor images i)
        ∧ (results.getD i ⟨[], [], [], []⟩).class_ids.length
            = (results.getD i ⟨[], [], [], []⟩).rois.length
        ∧ (results.getD i ⟨[], [], [], []⟩).scores.length
            = (results.getD i ⟨[], [], [], []⟩).rois.length
        ∧ (results.getD i ⟨[], [], [], []⟩).masks.length
            = (images.getD i ⟨0, 0, 0⟩).H
        ∧ ∀ row ∈ (results.getD i ⟨[], [], [], []⟩).masks,
            row.length = (images.getD i ⟨0, 0, 0⟩).W
            ∧ ∀ cell ∈ row,
                cell.length = (results.getD i ⟨[], [], [], []⟩).rois.length := by
  have hres : results = (List.range images.length).map
      (fun k => toRecord (unmoldFor cfg resize predictor images k)) := by
    simp only [detect] at hok
    split at hok
    · simp at hok
    · split at hok
      · simp at hok
      · injection hok with h
        exact h.symm
  subst hres
  refine ⟨by simp, ?_⟩
  intro i hi
  rw [getD_range_map _ _ hi]
  refine ⟨rfl, ?_, ?_, ?_, ?_⟩ <;> simp only [toRecord] <;> rw [unmoldFor_eq]
  · exact (unmold_shapes _ _ _ _ _).1
  · exact (unmold_shapes _ _ _ _ _).2.1
  · exact (unmold_shapes _ _ _ _ _).2.2.1
  · exact (unmold_shapes _ _ _ _ _).2.2.2

/-- Witness for C1 at a concrete accepted batch of one 5 × 5 image: the
result list has exactly one record. -/
theorem C1_detect_one_record_per_image_witness :
    ((List.range 1).map (fun k => toRecord (unmoldFor ⟨1, 3, 64, 64⟩
        (fun _ => ⟨65, 65, 3, ⟨0, 0, 64, 64⟩, 1⟩)
        (fun _ _ => ⟨[[⟨⟨0, 0, 1, 1⟩, 1, 9/10⟩]], [[[[[1]]]]]⟩)
        [⟨5, 5, 3⟩] k))).length = 1 :=
  (C1_detect_one_record_per_image ⟨1, 3, 64, 64⟩
    (fun _ => ⟨65, 65, 3, ⟨0, 0, 64, 64⟩, 1⟩)
    (fun _ _ => ⟨[[⟨⟨0, 0, 1, 1⟩, 1, 9/10⟩]], [[[[[1]]]]]⟩)
    [⟨5, 5, 3⟩] _ rfl).1

end Claims

end MRCNN
